import Mathlib

/-!
# GPX Trail Flyer — verification of the track parser, position model,
animation driver and photo trigger engine

Shallow embedding of the core logic of the gpx-trail-flyer application:

* `parseTrack` / `parseGPX` embed `GPXParser.parseTrack` / `GPXParser.parseGPX`
  (src/unnamed/part_002).  XML attribute values are kept as `Option String`
  (JavaScript truthiness of an attribute is "present and non-empty"); numeric
  child values (`ele`) are modelled after `parseFloat` as rationals, and the
  `parseFloat` applied to the latitude/longitude attribute strings is an
  abstract parameter `parseF`.  The great-circle distance accumulated into
  `totalDistance` is likewise an abstract parameter `dist`, because the real
  one is real-valued (`calculateDistance` below) while the parser state is
  kept executable over `ℚ`.
* `calculateDistance` embeds the haversine implementation over `ℝ`.
* `percentToIndex` embeds the percent→index mapping
  `Math.floor((currentPosition / 100) * (track.points.length - 1))` shared by
  `AnimationControls` (src/unnamed/part_008) and `TrailMap`.
* `IndexState` / `indexStep` embed the state cells and the effects of the
  `Index` component (src/unnamed/part_000): the photo-trigger effect, the
  animation-frame loop, `handleReset`, `handlePlayPause`,
  `handlePositionChange`, and the 3000 ms auto-resume `setTimeout` (which the
  component never cancels, so pending timers survive `handleReset`; they are
  modelled as the queue `pendingResumes`).
-/

namespace GpxTrailFlyer

/-- A parsed track point (`GPXPoint` of src/unnamed/part_001); `ele` and
`time` are the optional extras. -/
structure GPXPoint where
  lat : ℚ
  lon : ℚ
  ele : Option ℚ
  time : Option String
  deriving DecidableEq, Repr

/-- A raw `<trkpt>` element as delivered by the XML parser: the `lat`/`lon`
attributes as raw strings (absent = `none`), the optional `ele` child already
read as a number, and the optional `time` child. -/
structure Trkpt where
  latAttr : Option String
  lonAttr : Option String
  ele : Option ℚ
  time : Option String
  deriving DecidableEq, Repr

/-- A raw `<trk>` element: its optional name and its list of segments, each
segment being its list of `<trkpt>` children (`trk.trkseg` absent = `none`,
`segment.trkpt` absent = the empty list). -/
structure Trk where
  name : Option String
  trkseg : Option (List (List Trkpt))
  deriving DecidableEq, Repr

/-- A parsed track (`GPXTrack` of src/unnamed/part_001). -/
structure GPXTrack where
  name : Option String
  points : List GPXPoint
  totalDistance : ℚ
  elevationGain : ℚ
  elevationLoss : ℚ
  deriving DecidableEq, Repr

/-- JavaScript truthiness of an optional attribute string: `undefined` and
the empty string are falsy, everything else is truthy. -/
def jsTruthyStr : Option String → Bool
  | none => false
  | some s => s != ""

/-- The point-acceptance test of `parseTrack`:
`if (!trkpt["@_lat"] || !trkpt["@_lon"]) continue;` keeps a point exactly
when both attributes are truthy. -/
def keepTrkpt (t : Trkpt) : Bool :=
  jsTruthyStr t.latAttr && jsTruthyStr t.lonAttr

/-- Building the `GPXPoint` from an accepted `<trkpt>`; `parseF` abstracts
`parseFloat` on the attribute strings, and `trkpt.time` is copied only when
truthy (`if (trkpt.time)`). -/
def mkPoint (parseF : String → ℚ) (t : Trkpt) : GPXPoint :=
  { lat := parseF (t.latAttr.getD "")
    lon := parseF (t.lonAttr.getD "")
    ele := t.ele
    time := if jsTruthyStr t.time then t.time else none }

/-- The mutable loop state of `parseTrack`: accumulated points, distance,
elevation gain/loss, and the `prevPoint` / `prevElevation` trackers. -/
structure ParseState where
  points : List GPXPoint
  totalDistance : ℚ
  elevationGain : ℚ
  elevationLoss : ℚ
  prevPoint : Option GPXPoint
  prevElevation : Option ℚ
  deriving Repr

/-- One iteration of the inner `for (const trkpt of trkpts)` loop of
`parseTrack`.  A rejected point leaves the state untouched; an accepted point
is appended, the distance to the previous point (if any) is added, and the
elevation difference against the last seen elevation (if both exist) goes to
gain or loss; `prevElevation` is updated only when the point has an
elevation. -/
def trkptStep (dist : GPXPoint → GPXPoint → ℚ) (parseF : String → ℚ)
    (s : ParseState) (t : Trkpt) : ParseState :=
  if keepTrkpt t then
    let point := mkPoint parseF t
    { points := s.points ++ [point]
      totalDistance := s.totalDistance +
        (match s.prevPoint with
          | some pp => dist pp point
          | none => 0)
      elevationGain := s.elevationGain +
        (match point.ele, s.prevElevation with
          | some e, some pe => if e - pe > 0 then e - pe else 0
          | _, _ => 0)
      elevationLoss := s.elevationLoss +
        (match point.ele, s.prevElevation with
          | some e, some pe => if e - pe > 0 then 0 else |e - pe|
          | _, _ => 0)
      prevPoint := some point
      prevElevation :=
        (match point.ele with
          | some e => some e
          | none => s.prevElevation) }
  else s

/-- `GPXParser.parseTrack` (src/unnamed/part_002, lines 51–118).  A `<trk>`
without `trkseg` returns the empty track early (without a name); otherwise
the segments' points are folded in order — the `prevPoint`/`prevElevation`
trackers carry across segment boundaries, so the nested loops equal a fold
over the concatenation. -/
def parseTrack (dist : GPXPoint → GPXPoint → ℚ) (parseF : String → ℚ)
    (trk : Trk) : GPXTrack :=
  match trk.trkseg with
  | none =>
      { name := none, points := [], totalDistance := 0
        elevationGain := 0, elevationLoss := 0 }
  | some segs =>
      let st := segs.flatten.foldl (trkptStep dist parseF)
        { points := [], totalDistance := 0, elevationGain := 0
          elevationLoss := 0, prevPoint := none, prevElevation := none }
      { name := some
          (match trk.name with
            | some s => if s != "" then s else "Unnamed Track"
            | none => "Unnamed Track")
        points := st.points
        totalDistance := st.totalDistance
        elevationGain := st.elevationGain
        elevationLoss := st.elevationLoss }

/-- The parsed root element `result.gpx`: its `trk` member normalized to a
list (`Array.isArray(gpx.trk) ? gpx.trk : [gpx.trk].filter(Boolean)` gives
the empty list when `trk` is absent). -/
structure GpxRoot where
  trk : List Trk
  deriving Repr

/-- The XML parse result: a document without a `gpx` root member has
`gpx = none`.  (The XML parser turns the empty document into an object with
no `gpx` member.) -/
structure GpxDoc where
  gpx : Option GpxRoot
  deriving Repr

/-- The bounding box accumulated by `parseGPX`; `Infinity` / `-Infinity`
starting values are `⊤ : WithTop ℚ` / `⊥ : WithBot ℚ`. -/
structure GpxBounds where
  minLat : WithTop ℚ
  maxLat : WithBot ℚ
  minLon : WithTop ℚ
  maxLon : WithBot ℚ

/-- `GPXData` of src/unnamed/part_001 (without the photo list, which is
attached later by the UI). -/
structure GPXData where
  tracks : List GPXTrack
  bounds : GpxBounds

/-- The document parsed to an object with no `gpx` root — what the XML
parser yields for an empty document. -/
def emptyGpxDoc : GpxDoc := { gpx := none }

/-- `GPXParser.parseGPX` (src/unnamed/part_002, lines 15–49): throws
`Error('Invalid GPX file format')` exactly when `result.gpx` is missing;
otherwise parses every `<trk>`, keeps the tracks with at least one accepted
point, and folds the bounds over the kept tracks' points. -/
def parseGPX (dist : GPXPoint → GPXPoint → ℚ) (parseF : String → ℚ)
    (doc : GpxDoc) : Except String GPXData :=
  match doc.gpx with
  | none => Except.error "Invalid GPX file format"
  | some gpx =>
      let tracks := (gpx.trk.map (parseTrack dist parseF)).filter
        (fun tr => !tr.points.isEmpty)
      let allPoints := tracks.foldl (fun acc tr => acc ++ tr.points) []
      Except.ok
        { tracks := tracks
          bounds :=
            { minLat := allPoints.foldl (fun m p => min m (p.lat : WithTop ℚ)) ⊤
              maxLat := allPoints.foldl (fun m p => max m (p.lat : WithBot ℚ)) ⊥
              minLon := allPoints.foldl (fun m p => min m (p.lon : WithTop ℚ)) ⊤
              maxLon := allPoints.foldl (fun m p => max m (p.lon : WithBot ℚ)) ⊥ } }

/-! ## Position model -/

/-- The percent→index mapping
`Math.floor((currentPosition / 100) * (track.points.length - 1))` used by
`AnimationControls` (src/unnamed/part_008, line 30) and by the `TrailMap`
marker effect; the subtraction happens in JavaScript number arithmetic, hence
`(pointCount : ℚ) - 1`. -/
def percentToIndex (percent : ℚ) (pointCount : ℕ) : ℤ :=
  ⌊percent / 100 * ((pointCount : ℚ) - 1)⌋

/-- The specification's PercentToIndex: the same floor expression, clamped to
`[0, pointCount-1]`.  Stated from the spec's words for comparison with the
code's unclamped `percentToIndex`. -/
def percentToIndexClamped (percent : ℚ) (pointCount : ℕ) : ℤ :=
  max 0 (min (percentToIndex percent pointCount) ((pointCount : ℤ) - 1))

/-! ## The Index component: animation driver and photo trigger engine -/

/-- A derived photo position: the anchor's id together with its progress
percentage along the track (the `{photo, position}` pairs computed by the
photo-positions effect of `Index`). -/
structure PhotoPosition where
  id : String
  position : ℚ
  deriving DecidableEq, Repr

/-- `animationDuration` of the `Index` component: fixed at 10000 ms. -/
def animationDuration : ℚ := 10000

/-- The state cells of the `Index` component (src/unnamed/part_000) that the
animation driver and photo trigger engine read and write, plus two pieces of
bookkeeping: `pendingResumes` is the queue of scheduled 3000 ms auto-resume
timeouts, each holding the `currentPosition` its closure captured (the
component never calls `clearTimeout`, so the queue survives `handleReset`),
and `firedEvents` is the ghost log of presentation events (photo ids in
firing order). -/
structure IndexState where
  isPlaying : Bool
  currentPosition : ℚ
  startTime : Option ℚ
  shownPhotosInSession : List String
  isAutoPhotoOpen : Bool
  pendingResumes : List ℚ
  firedEvents : List String
  deriving DecidableEq, Repr

/-- The photo-trigger effect of `Index` (lines 100–129): while playing and
with a non-empty position list, find the first position within 1 % tolerance
whose photo was not yet shown this session and which the marker reaches
moving forward; fire it: record the id as shown, log the presentation event,
open the modal, pause (clearing `startTime`), and schedule the 3000 ms
auto-resume capturing the current position. -/
def photoTriggerCheck (positions : List PhotoPosition) (st : IndexState) :
    IndexState :=
  if st.isPlaying && !positions.isEmpty then
    match positions.find? (fun item =>
        decide (|st.currentPosition - item.position| ≤ 1)
        && !(st.shownPhotosInSession.contains item.id)
        && decide (st.currentPosition ≥ item.position - 1)) with
    | some item =>
        { st with
          shownPhotosInSession := item.id :: st.shownPhotosInSession
          firedEvents := st.firedEvents ++ [item.id]
          isAutoPhotoOpen := true
          isPlaying := false
          startTime := none
          pendingResumes := st.pendingResumes ++ [st.currentPosition] }
    | none => st
  else st

/-- `handleReset` (lines 50–55): position to 0, stop playing, clear
`startTime` and the shown-photo set.  No `clearTimeout` exists in the
component, so `pendingResumes` is untouched. -/
def handleReset (st : IndexState) : IndexState :=
  { st with
    currentPosition := 0
    isPlaying := false
    startTime := none
    shownPhotosInSession := [] }

/-- The body of the 3000 ms `setTimeout` scheduled by the photo-trigger
effect (lines 121–127), firing the oldest pending timer: close the modal,
restore `startTime` from the captured position, and set `isPlaying` back to
true. -/
def timeoutResume (now : ℚ) (st : IndexState) : IndexState :=
  match st.pendingResumes with
  | [] => st
  | p :: rest =>
      { st with
        isAutoPhotoOpen := false
        startTime := some (now - p / 100 * animationDuration)
        isPlaying := true
        pendingResumes := rest }

/-- One run of the animation-loop effect's `animate` callback (lines
131–149); the effect returns early unless playing with a start time
(`if (!isPlaying || !startTime) return`).  Progress is the capped elapsed
fraction; reaching 100 stops playback and clears `startTime`. -/
def animationFrameTick (now : ℚ) (st : IndexState) : IndexState :=
  if st.isPlaying then
    match st.startTime with
    | none => st
    | some t0 =>
        let progress := min ((now - t0) / animationDuration * 100) 100
        let st1 := { st with currentPosition := progress }
        if progress ≥ 100 then
          { st1 with isPlaying := false, startTime := none }
        else st1
  else st

/-- `handlePlayPause` (lines 43–48): when paused, recompute `startTime` from
the current position before toggling; when playing, just toggle. -/
def handlePlayPause (now : ℚ) (st : IndexState) : IndexState :=
  if st.isPlaying then { st with isPlaying := false }
  else
    { st with
      isPlaying := true
      startTime := some (now - st.currentPosition / 100 * animationDuration) }

/-- `handlePositionChange` (lines 57–62): set the position; while playing,
recompute `startTime` so playback continues from the new position. -/
def handlePositionChange (q now : ℚ) (st : IndexState) : IndexState :=
  { st with
    currentPosition := q
    startTime :=
      if st.isPlaying then some (now - q / 100 * animationDuration)
      else st.startTime }

/-- The external stimuli of the `Index` component: a seek, a play/pause
click, an animation frame, a pending auto-resume timer firing, and the reset
button. -/
inductive IndexEv where
  | seek (q now : ℚ)
  | playPause (now : ℚ)
  | tick (now : ℚ)
  | timerFire (now : ℚ)
  | reset
  deriving DecidableEq, Repr

/-- One stimulus followed by the photo-trigger effect, which React re-runs
whenever `currentPosition`, `isPlaying` or `shownPhotosInSession` changed.
After `handleReset` the effect's re-run is a no-op (`isPlaying` is false), so
it is omitted. -/
def indexStep (positions : List PhotoPosition) (st : IndexState) :
    IndexEv → IndexState
  | IndexEv.seek q now => photoTriggerCheck positions (handlePositionChange q now st)
  | IndexEv.playPause now => photoTriggerCheck positions (handlePlayPause now st)
  | IndexEv.tick now => photoTriggerCheck positions (animationFrameTick now st)
  | IndexEv.timerFire now => photoTriggerCheck positions (timeoutResume now st)
  | IndexEv.reset => handleReset st

/-- Running the component over a sequence of stimuli. -/
def runIndex (positions : List PhotoPosition) (st : IndexState)
    (evs : List IndexEv) : IndexState :=
  evs.foldl (indexStep positions) st

/-! ## Geometry: the haversine distance -/

/-- `toRadians` (src/unnamed/part_002, lines 132–134). -/
noncomputable def toRadians (degrees : ℝ) : ℝ :=
  degrees * (Real.pi / 180)

/-- JavaScript's `Math.atan2(y, x)` on the reals (signed-zero distinctions
collapse; `atan2 0 0 = 0` as in JavaScript). -/
noncomputable def atan2 (y x : ℝ) : ℝ :=
  if 0 < x then Real.arctan (y / x)
  else if x < 0 then
    (if 0 ≤ y then Real.arctan (y / x) + Real.pi
     else Real.arctan (y / x) - Real.pi)
  else
    (if 0 < y then Real.pi / 2
     else if y < 0 then -(Real.pi / 2)
     else 0)

/-- `GPXParser.calculateDistance` (src/unnamed/part_002, lines 120–130):
haversine with Earth radius 6371000 m, evaluated over the reals. -/
noncomputable def calculateDistance (point1 point2 : GPXPoint) : ℝ :=
  let r : ℝ := 6371000
  let dLat := toRadians ((point2.lat : ℝ) - (point1.lat : ℝ))
  let dLon := toRadians ((point2.lon : ℝ) - (point1.lon : ℝ))
  let a :=
    Real.sin (dLat / 2) * Real.sin (dLat / 2) +
      Real.cos (toRadians (point1.lat : ℝ)) * Real.cos (toRadians (point2.lat : ℝ)) *
        Real.sin (dLon / 2) * Real.sin (dLon / 2)
  let c := 2 * atan2 (Real.sqrt a) (Real.sqrt (1 - a))
  r * c

/-! ## Elevation accumulation over the chain of elevation samples -/

/-- Gain accumulated along a list of elevation samples, comparing each sample
against the previous one (the optional first argument being the sample seen
before the list started). -/
def gainAux : Option ℚ → List ℚ → ℚ
  | _, [] => 0
  | none, e :: rest => gainAux (some e) rest
  | some p, e :: rest => (if e - p > 0 then e - p else 0) + gainAux (some e) rest

/-- Loss accumulated along a list of elevation samples, mirroring
`gainAux`. -/
def lossAux : Option ℚ → List ℚ → ℚ
  | _, [] => 0
  | none, e :: rest => lossAux (some e) rest
  | some p, e :: rest => (if e - p > 0 then 0 else |e - p|) + lossAux (some e) rest

/-- Total elevation gain over consecutive pairs of a sample list. -/
def chainGain (es : List ℚ) : ℚ := gainAux none es

/-- Total elevation loss over consecutive pairs of a sample list. -/
def chainLoss (es : List ℚ) : ℚ := lossAux none es

/-- The elevation samples of the points a trkpt list contributes: the `ele`
values of the accepted points, in order. -/
def keptElevations (ts : List Trkpt) : List ℚ :=
  (ts.filter keepTrkpt).filterMap Trkpt.ele

/-! ## Parser lemmas -/

lemma trkptStep_not_keep (dist : GPXPoint → GPXPoint → ℚ) (parseF : String → ℚ)
    (s : ParseState) (t : Trkpt) (h : keepTrkpt t = false) :
    trkptStep dist parseF s t = s := by
  simp [trkptStep, h]

lemma trkptStep_keep (dist : GPXPoint → GPXPoint → ℚ) (parseF : String → ℚ)
    (s : ParseState) (t : Trkpt) (h : keepTrkpt t = true) :
    trkptStep dist parseF s t =
      { points := s.points ++ [mkPoint parseF t]
        totalDistance := s.totalDistance +
          (match s.prevPoint with
            | some pp => dist pp (mkPoint parseF t)
            | none => 0)
        elevationGain := s.elevationGain +
          (match t.ele, s.prevElevation with
            | some e, some pe => if e - pe > 0 then e - pe else 0
            | _, _ => 0)
        elevationLoss := s.elevationLoss +
          (match t.ele, s.prevElevation with
            | some e, some pe => if e - pe > 0 then 0 else |e - pe|
            | _, _ => 0)
        prevPoint := some (mkPoint parseF t)
        prevElevation :=
          (match t.ele with
            | some e => some e
            | none => s.prevElevation) } := by
  simp [trkptStep, h, mkPoint]

/-- The fold of `trkptStep` appends the accepted points and accumulates the
elevation gain and loss of the chain of elevation samples, continuing from
the state's `prevElevation`. -/
lemma foldl_trkptStep_spec (dist : GPXPoint → GPXPoint → ℚ)
    (parseF : String → ℚ) :
    ∀ (ts : List Trkpt) (s : ParseState),
      (ts.foldl (trkptStep dist parseF) s).points
          = s.points ++ (ts.filter keepTrkpt).map (mkPoint parseF)
        ∧ (ts.foldl (trkptStep dist parseF) s).elevationGain
          = s.elevationGain + gainAux s.prevElevation (keptElevations ts)
        ∧ (ts.foldl (trkptStep dist parseF) s).elevationLoss
          = s.elevationLoss + lossAux s.prevElevation (keptElevations ts) := by
  intro ts
  induction ts with
  | nil =>
      intro s
      simp [keptElevations, gainAux, lossAux]
  | cons t rest ih =>
      intro s
      by_cases hk : keepTrkpt t
      · rw [List.foldl_cons, trkptStep_keep dist parseF s t hk]
        obtain ⟨h1, h2, h3⟩ := ih _
        refine ⟨?_, ?_, ?_⟩
        · rw [h1]
          simp [List.filter_cons, hk]
        · rw [h2]
          cases het : t.ele with
          | none =>
              cases hpe : s.prevElevation <;>
                simp [keptElevations, List.filter_cons, hk, List.filterMap_cons,
                  het, gainAux, add_assoc]
          | some e =>
              cases hpe : s.prevElevation <;>
                simp [keptElevations, List.filter_cons, hk, List.filterMap_cons,
                  het, gainAux, add_assoc]
        · rw [h3]
          cases het : t.ele with
          | none =>
              cases hpe : s.prevElevation <;>
                simp [keptElevations, List.filter_cons, hk, List.filterMap_cons,
                  het, lossAux, add_assoc]
          | some e =>
              cases hpe : s.prevElevation <;>
                simp [keptElevations, List.filter_cons, hk, List.filterMap_cons,
                  het, lossAux, add_assoc]
      · rw [List.foldl_cons,
          trkptStep_not_keep dist parseF s t (Bool.not_eq_true _ ▸ hk)]
        obtain ⟨h1, h2, h3⟩ := ih s
        refine ⟨?_, ?_, ?_⟩ <;>
          simp_all [keptElevations, List.filter_cons, hk]

/-- The points produced by `parseTrack` on a track with segments are exactly
the accepted raw points, in document order, mapped through `mkPoint`. -/
lemma parseTrack_points (dist : GPXPoint → GPXPoint → ℚ) (parseF : String → ℚ)
    (name : Option String) (segs : List (List Trkpt)) :
    (parseTrack dist parseF { name := name, trkseg := some segs }).points
      = (segs.flatten.filter keepTrkpt).map (mkPoint parseF) := by
  simpa [parseTrack] using (foldl_trkptStep_spec dist parseF segs.flatten _).1

/-- `mkPoint` copies the elevation, so the elevation samples of the produced
points are the kept elevations of the raw list. -/
lemma filterMap_ele_map_mkPoint (parseF : String → ℚ) (ts : List Trkpt) :
    ((ts.filter keepTrkpt).map (mkPoint parseF)).filterMap GPXPoint.ele
      = keptElevations ts := by
  rw [keptElevations, List.filterMap_map]
  rfl

/-- The elevation gain reported by `parseTrack` is the chain gain over the
elevation samples of its output points. -/
lemma parseTrack_gain_spec (dist : GPXPoint → GPXPoint → ℚ)
    (parseF : String → ℚ) (trk : Trk) :
    (parseTrack dist parseF trk).elevationGain
      = chainGain ((parseTrack dist parseF trk).points.filterMap GPXPoint.ele) := by
  obtain ⟨name, segs⟩ := trk
  cases segs with
  | none => simp [parseTrack, chainGain, gainAux]
  | some segs =>
      rw [parseTrack_points, filterMap_ele_map_mkPoint]
      simpa [parseTrack, chainGain] using
        (foldl_trkptStep_spec dist parseF segs.flatten
          ⟨[], 0, 0, 0, none, none⟩).2.1

/-- The elevation loss reported by `parseTrack` is the chain loss over the
elevation samples of its output points. -/
lemma parseTrack_loss_spec (dist : GPXPoint → GPXPoint → ℚ)
    (parseF : String → ℚ) (trk : Trk) :
    (parseTrack dist parseF trk).elevationLoss
      = chainLoss ((parseTrack dist parseF trk).points.filterMap GPXPoint.ele) := by
  obtain ⟨name, segs⟩ := trk
  cases segs with
  | none => simp [parseTrack, chainLoss, lossAux]
  | some segs =>
      rw [parseTrack_points, filterMap_ele_map_mkPoint]
      simpa [parseTrack, chainLoss] using
        (foldl_trkptStep_spec dist parseF segs.flatten
          ⟨[], 0, 0, 0, none, none⟩).2.2

/-- The gain/loss accumulation telescopes: starting from sample `p`, gain
minus loss over a sample list is the last sample (or `p` for the empty list)
minus `p`. -/
lemma gainAux_sub_lossAux :
    ∀ (es : List ℚ) (p : ℚ),
      gainAux (some p) es - lossAux (some p) es = es.getLastD p - p := by
  intro es
  induction es with
  | nil =>
      intro p
      simp [gainAux, lossAux]
  | cons e r ih =>
      intro p
      simp only [gainAux, lossAux, List.getLastD_cons]
      by_cases h : e - p > 0
      · rw [if_pos h, if_pos h]
        have := ih e
        linarith
      · have habs : |e - p| = -(e - p) := abs_of_nonpos (by linarith)
        rw [if_neg h, if_neg h, habs]
        have := ih e
        linarith

/-- Telescoping for a non-empty sample list from a fresh chain. -/
lemma chainGain_sub_chainLoss (e : ℚ) (rest : List ℚ) :
    chainGain (e :: rest) - chainLoss (e :: rest)
      = (e :: rest).getLastD 0 - e := by
  simp only [chainGain, chainLoss, gainAux, lossAux, List.getLastD_cons]
  exact gainAux_sub_lossAux rest e

/-! ## Photo trigger: one-shot behaviour -/

/-- One run of the photo-trigger effect either leaves the fired-event log and
the shown set unchanged, or fires exactly one photo id that was not yet in
the shown set and adds it to the set. -/
lemma photoTriggerCheck_spec (positions : List PhotoPosition) (st : IndexState) :
    ((photoTriggerCheck positions st).firedEvents = st.firedEvents ∧
      (photoTriggerCheck positions st).shownPhotosInSession
        = st.shownPhotosInSession)
    ∨ ∃ j, j ∉ st.shownPhotosInSession
        ∧ (photoTriggerCheck positions st).firedEvents = st.firedEvents ++ [j]
        ∧ (photoTriggerCheck positions st).shownPhotosInSession
          = j :: st.shownPhotosInSession := by
  unfold photoTriggerCheck
  split
  · split
    · next item heq =>
        right
        have hp := List.find?_some heq
        simp only [Bool.and_eq_true, Bool.not_eq_true', decide_eq_true_eq] at hp
        refine ⟨item.id, ?_, by simp, by simp⟩
        have hc := hp.1.2
        simpa using hc
    · next => exact Or.inl ⟨rfl, rfl⟩
  · exact Or.inl ⟨rfl, rfl⟩

lemma handlePositionChange_preserves (q now : ℚ) (st : IndexState) :
    (handlePositionChange q now st).firedEvents = st.firedEvents
    ∧ (handlePositionChange q now st).shownPhotosInSession
      = st.shownPhotosInSession := ⟨rfl, rfl⟩

lemma handlePlayPause_preserves (now : ℚ) (st : IndexState) :
    (handlePlayPause now st).firedEvents = st.firedEvents
    ∧ (handlePlayPause now st).shownPhotosInSession
      = st.shownPhotosInSession := by
  unfold handlePlayPause
  split <;> exact ⟨rfl, rfl⟩

lemma timeoutResume_preserves (now : ℚ) (st : IndexState) :
    (timeoutResume now st).firedEvents = st.firedEvents
    ∧ (timeoutResume now st).shownPhotosInSession
      = st.shownPhotosInSession := by
  unfold timeoutResume
  split <;> exact ⟨rfl, rfl⟩

lemma animationFrameTick_preserves (now : ℚ) (st : IndexState) :
    (animationFrameTick now st).firedEvents = st.firedEvents
    ∧ (animationFrameTick now st).shownPhotosInSession
      = st.shownPhotosInSession := by
  unfold animationFrameTick
  split
  · split
    · exact ⟨rfl, rfl⟩
    · dsimp only
      split <;> exact ⟨rfl, rfl⟩
  · exact ⟨rfl, rfl⟩

/-- Every non-reset stimulus either leaves the fired-event log and shown set
unchanged, or fires exactly one not-yet-shown photo id and marks it shown. -/
lemma indexStep_spec (positions : List PhotoPosition) (st : IndexState)
    (ev : IndexEv) (h : ev ≠ IndexEv.reset) :
    ((indexStep positions st ev).firedEvents = st.firedEvents ∧
      (indexStep positions st ev).shownPhotosInSession
        = st.shownPhotosInSession)
    ∨ ∃ j, j ∉ st.shownPhotosInSession
        ∧ (indexStep positions st ev).firedEvents = st.firedEvents ++ [j]
        ∧ (indexStep positions st ev).shownPhotosInSession
          = j :: st.shownPhotosInSession := by
  cases ev with
  | seek q now =>
      have hpre := handlePositionChange_preserves q now st
      have hspec := photoTriggerCheck_spec positions (handlePositionChange q now st)
      rw [hpre.1, hpre.2] at hspec
      exact hspec
  | playPause now =>
      have hpre := handlePlayPause_preserves now st
      have hspec := photoTriggerCheck_spec positions (handlePlayPause now st)
      rw [hpre.1, hpre.2] at hspec
      exact hspec
  | tick now =>
      have hpre := animationFrameTick_preserves now st
      have hspec := photoTriggerCheck_spec positions (animationFrameTick now st)
      rw [hpre.1, hpre.2] at hspec
      exact hspec
  | timerFire now =>
      have hpre := timeoutResume_preserves now st
      have hspec := photoTriggerCheck_spec positions (timeoutResume now st)
      rw [hpre.1, hpre.2] at hspec
      exact hspec
  | reset => exact absurd rfl h

/-- Once a photo id is in the shown set, a reset-free run never fires it
again, and it stays in the shown set. -/
lemma runIndex_never_refire :
    ∀ (evs : List IndexEv) (positions : List PhotoPosition) (st : IndexState)
      (id : String), (∀ e ∈ evs, e ≠ IndexEv.reset) →
      id ∈ st.shownPhotosInSession →
      (runIndex positions st evs).firedEvents.count id
          = st.firedEvents.count id
        ∧ id ∈ (runIndex positions st evs).shownPhotosInSession := by
  intro evs
  induction evs with
  | nil =>
      intro positions st id _ hmem
      exact ⟨rfl, hmem⟩
  | cons e evs ih =>
      intro positions st id hnr hmem
      have hne : e ≠ IndexEv.reset := hnr e (List.mem_cons_self e evs)
      have hrest : ∀ x ∈ evs, x ≠ IndexEv.reset :=
        fun x hx => hnr x (List.mem_cons_of_mem e hx)
      have hrun : runIndex positions st (e :: evs)
          = runIndex positions (indexStep positions st e) evs := rfl
      rcases indexStep_spec positions st e hne with
        ⟨hf, hs⟩ | ⟨j, hj, hf, hs⟩
      · have := ih positions (indexStep positions st e) id hrest (hs ▸ hmem)
        rw [hrun, this.1, hf]
        exact ⟨rfl, this.2⟩
      · have hjne : j ≠ id := fun heq => hj (heq ▸ hmem)
        have hmem' : id ∈ (indexStep positions st e).shownPhotosInSession := by
          rw [hs]; exact List.mem_cons_of_mem j hmem
        have := ih positions (indexStep positions st e) id hrest hmem'
        rw [hrun, this.1, hf, List.count_append]
        refine ⟨?_, this.2⟩
        have : [j].count id = 0 := by
          simp [List.count_singleton, hjne]
        rw [this, add_zero]

/-- A reset-free run from a state where the fired log counts `id` at most
once and every fired id is marked shown keeps the count of `id` at most
one. -/
lemma runIndex_count_le_one :
    ∀ (evs : List IndexEv) (positions : List PhotoPosition) (st : IndexState)
      (id : String), (∀ e ∈ evs, e ≠ IndexEv.reset) →
      st.firedEvents.count id ≤ 1 →
      (∀ j, j ∈ st.firedEvents → j ∈ st.shownPhotosInSession) →
      (runIndex positions st evs).firedEvents.count id ≤ 1 := by
  intro evs
  induction evs with
  | nil =>
      intro positions st id _ hcount _
      exact hcount
  | cons e evs ih =>
      intro positions st id hnr hcount hsub
      have hne : e ≠ IndexEv.reset := hnr e (List.mem_cons_self e evs)
      have hrest : ∀ x ∈ evs, x ≠ IndexEv.reset :=
        fun x hx => hnr x (List.mem_cons_of_mem e hx)
      have hrun : runIndex positions st (e :: evs)
          = runIndex positions (indexStep positions st e) evs := rfl
      rw [hrun]
      rcases indexStep_spec positions st e hne with
        ⟨hf, hs⟩ | ⟨j, hj, hf, hs⟩
      · exact ih positions _ id hrest (hf ▸ hcount) (by rw [hf, hs]; exact hsub)
      · refine ih positions _ id hrest ?_ ?_
        · rw [hf, List.count_append]
          by_cases hji : j = id
          · have hidnf : id ∉ st.firedEvents := by
              intro hmem
              exact hj (hji ▸ hsub id hmem)
            have h0 : st.firedEvents.count id = 0 :=
              List.count_eq_zero.mpr hidnf
            have h1 : [j].count id ≤ 1 := by
              simp [List.count_singleton, hji]
            omega
          · have h0 : [j].count id = 0 := by
              simp [List.count_singleton, hji]
            omega
        · intro k hk
          rw [hf] at hk
          rw [hs]
          rcases List.mem_append.mp hk with hk | hk
          · exact List.mem_cons_of_mem j (hsub k hk)
          · have : k = j := by simpa using hk
            rw [this]
            exact List.mem_cons_self j _

/-! ## Concrete fixtures -/

/-- A trivial distance function for evaluating the parser on concrete
inputs (the elevation and point bookkeeping is independent of it). -/
def dist0 : GPXPoint → GPXPoint → ℚ := fun _ _ => 0

/-- A trivial attribute-number parser for evaluating the parser on concrete
inputs. -/
def parseF0 : String → ℚ := fun _ => 0

/-- A well-formed raw point with the given elevation. -/
def elePoint (e : ℚ) : Trkpt :=
  { latAttr := some "50.0", lonAttr := some "14.0", ele := some e, time := none }

/-- A one-segment track whose elevation sequence is `[100, 150, 200]`. -/
def ascendingTrk : Trk :=
  { name := some "up", trkseg := some [[elePoint 100, elePoint 150, elePoint 200]] }

/-- A one-segment track whose elevation sequence is `[200, 150, 100]`. -/
def descendingTrk : Trk :=
  { name := some "down", trkseg := some [[elePoint 200, elePoint 150, elePoint 100]] }

/-- A raw point carrying a latitude attribute but no longitude attribute. -/
def c4Point : Trkpt :=
  { latAttr := some "50.0", lonAttr := none, ele := none, time := none }

/-- A one-segment track containing only `c4Point`. -/
def c4Trk : Trk := { name := none, trkseg := some [[c4Point]] }

/-! ## Claim theorems -/

/-- C3: for every parsed track, `elevationGain` and `elevationLoss`
accumulate only over consecutive elevation samples — a point without
elevation neither contributes nor resets the chain, so the gain/loss equal
the chain gain/loss over the subsequence of points that report elevation;
and on the elevation sequence `[100,150,200]` the parser yields gain `100`
and loss `0`, while on `[200,150,100]` it yields gain `0` and loss `100`. -/
theorem parseTrack_elevation_chain :
    (∀ (dist : GPXPoint → GPXPoint → ℚ) (parseF : String → ℚ) (trk : Trk),
        (parseTrack dist parseF trk).elevationGain
            = chainGain ((parseTrack dist parseF trk).points.filterMap GPXPoint.ele)
          ∧ (parseTrack dist parseF trk).elevationLoss
            = chainLoss ((parseTrack dist parseF trk).points.filterMap GPXPoint.ele))
    ∧ ((parseTrack dist0 parseF0 ascendingTrk).elevationGain = 100
        ∧ (parseTrack dist0 parseF0 ascendingTrk).elevationLoss = 0)
    ∧ ((parseTrack dist0 parseF0 descendingTrk).elevationGain = 0
        ∧ (parseTrack dist0 parseF0 descendingTrk).elevationLoss = 100) := by
  refine ⟨fun dist parseF trk =>
    ⟨parseTrack_gain_spec dist parseF trk, parseTrack_loss_spec dist parseF trk⟩,
    ⟨?_, ?_⟩, ⟨?_, ?_⟩⟩ <;>
    norm_num +decide [parseTrack, ascendingTrk, descendingTrk, elePoint,
      trkptStep, keepTrkpt, jsTruthyStr, mkPoint, dist0, parseF0]

/-- C9: for every parsed track with at least one elevation sample, the gain
minus the loss telescopes to the last elevation sample minus the first. -/
theorem parseTrack_gain_loss_telescopes :
    ∀ (dist : GPXPoint → GPXPoint → ℚ) (parseF : String → ℚ) (trk : Trk)
      (e : ℚ) (rest : List ℚ),
      (parseTrack dist parseF trk).points.filterMap GPXPoint.ele = e :: rest →
      (parseTrack dist parseF trk).elevationGain
          - (parseTrack dist parseF trk).elevationLoss
        = (e :: rest).getLastD 0 - e := by
  intro dist parseF trk e rest h
  rw [parseTrack_gain_spec, parseTrack_loss_spec, h]
  exact chainGain_sub_chainLoss e rest

/-- Witness for C9 at the ascending fixture: `200 - 100`. -/
theorem parseTrack_gain_loss_telescopes_witness :
    (parseTrack dist0 parseF0 ascendingTrk).elevationGain
        - (parseTrack dist0 parseF0 ascendingTrk).elevationLoss
      = ([(100 : ℚ), 150, 200]).getLastD 0 - 100 :=
  parseTrack_gain_loss_telescopes dist0 parseF0 ascendingTrk 100 [150, 200]
    (by decide)

/-- C5: `parseGPX` fails with the format error exactly when the parsed
document has no `gpx` root (the expected root/track-container structure);
in particular the empty document yields the format error. -/
theorem parseGPX_format_error_iff :
    (∀ (dist : GPXPoint → GPXPoint → ℚ) (parseF : String → ℚ) (doc : GpxDoc),
        (∃ msg, parseGPX dist parseF doc = Except.error msg) ↔ doc.gpx = none)
    ∧ (∀ (dist : GPXPoint → GPXPoint → ℚ) (parseF : String → ℚ),
        parseGPX dist parseF emptyGpxDoc
          = Except.error "Invalid GPX file format") := by
  constructor
  · intro dist parseF doc
    constructor
    · rintro ⟨msg, hmsg⟩
      cases hdoc : doc.gpx with
      | none => rfl
      | some g =>
          rw [parseGPX, hdoc] at hmsg
          cases hmsg
    · intro h
      exact ⟨"Invalid GPX file format", by rw [parseGPX, h]⟩
  · intro dist parseF
    rfl

/-- C4 counterexample: the point carrying a latitude attribute but no
longitude attribute is discarded by the parser, so "kept iff it does not
lack both attributes" is false at this input. -/
theorem point_discarded_iff_both_missing_cex :
    ¬(((parseTrack dist0 parseF0 c4Trk).points ≠ [])
        ↔ ¬(c4Point.latAttr = none ∧ c4Point.lonAttr = none)) := by
  decide

/-- C4 amended: a raw point is kept exactly when **both** the latitude and
the longitude attribute are present and non-empty (lacking either one
discards it), and the elevation/time extras never influence the decision;
the parser's output points are exactly the kept raw points in order. -/
theorem point_discarded_iff_any_missing :
    (∀ (dist : GPXPoint → GPXPoint → ℚ) (parseF : String → ℚ)
        (name : Option String) (segs : List (List Trkpt)),
        (parseTrack dist parseF { name := name, trkseg := some segs }).points
          = (segs.flatten.filter keepTrkpt).map (mkPoint parseF))
    ∧ (∀ t : Trkpt, keepTrkpt t = true
        ↔ ((∃ s, t.latAttr = some s ∧ s ≠ "")
            ∧ (∃ s, t.lonAttr = some s ∧ s ≠ "")))
    ∧ (∀ (t : Trkpt) (e : Option ℚ) (τ : Option String),
        keepTrkpt { t with ele := e, time := τ } = keepTrkpt t) := by
  refine ⟨parseTrack_points, ?_, ?_⟩
  · intro t
    obtain ⟨la, lo, el, ti⟩ := t
    cases la <;> cases lo <;> simp [keepTrkpt, jsTruthyStr]
  · intro t e τ
    rfl

/-- C2: while playing with a recorded start time, a tick of the animation
loop sets the position to `min ((now − start) / 10000 · 100) 100`, and the
driver stops (playing false, start time cleared) exactly when that computed
progress is 100; strictly below 100 the playing state and start time are
unchanged. -/
theorem animation_tick_progress :
    ∀ (st : IndexState) (now t0 : ℚ),
      st.isPlaying = true → st.startTime = some t0 →
      (animationFrameTick now st).currentPosition
          = min ((now - t0) / 10000 * 100) 100
      ∧ (((animationFrameTick now st).isPlaying = false
            ∧ (animationFrameTick now st).startTime = none)
          ↔ min ((now - t0) / 10000 * 100) 100 = 100)
      ∧ (min ((now - t0) / 10000 * 100) 100 < 100 →
          (animationFrameTick now st).isPlaying = true
          ∧ (animationFrameTick now st).startTime = some t0) := by
  intro st now t0 hp hs
  have hle : min ((now - t0) / 10000 * 100) 100 ≤ 100 := min_le_right _ _
  unfold animationFrameTick
  rw [hp, hs]
  simp only [if_true, animationDuration]
  by_cases hge : min ((now - t0) / 10000 * 100) 100 ≥ 100
  · have heq : min ((now - t0) / 10000 * 100) 100 = 100 := le_antisymm hle hge
    rw [if_pos hge]
    refine ⟨rfl, ?_, ?_⟩
    · simp [heq]
    · intro hlt
      exact absurd heq (ne_of_lt hlt)
  · rw [if_neg hge]
    refine ⟨rfl, ?_, fun _ => ⟨rfl, rfl⟩⟩
    constructor
    · rintro ⟨hfalse, -⟩
      simp at hfalse
    · intro h100
      exact absurd (le_of_eq h100.symm) hge

/-- Witness for C2: a tick at 5000 ms into a playthrough started at 0 with
duration 10000 ms reaches 50 % and keeps playing. -/
theorem animation_tick_progress_witness :
    (animationFrameTick 5000
        { isPlaying := true, currentPosition := 0, startTime := some 0,
          shownPhotosInSession := [], isAutoPhotoOpen := false,
          pendingResumes := [], firedEvents := [] }).currentPosition
        = min ((5000 - 0) / 10000 * 100) 100
    ∧ (((animationFrameTick 5000
          { isPlaying := true, currentPosition := 0, startTime := some 0,
            shownPhotosInSession := [], isAutoPhotoOpen := false,
            pendingResumes := [], firedEvents := [] }).isPlaying = false
          ∧ (animationFrameTick 5000
              { isPlaying := true, currentPosition := 0, startTime := some 0,
                shownPhotosInSession := [], isAutoPhotoOpen := false,
                pendingResumes := [], firedEvents := [] }).startTime = none)
        ↔ min (((5000 : ℚ) - 0) / 10000 * 100) 100 = 100)
    ∧ (min (((5000 : ℚ) - 0) / 10000 * 100) 100 < 100 →
        (animationFrameTick 5000
            { isPlaying := true, currentPosition := 0, startTime := some 0,
              shownPhotosInSession := [], isAutoPhotoOpen := false,
              pendingResumes := [], firedEvents := [] }).isPlaying = true
        ∧ (animationFrameTick 5000
            { isPlaying := true, currentPosition := 0, startTime := some 0,
              shownPhotosInSession := [], isAutoPhotoOpen := false,
              pendingResumes := [], firedEvents := [] }).startTime = some 0) :=
  animation_tick_progress
    { isPlaying := true, currentPosition := 0, startTime := some 0,
      shownPhotosInSession := [], isAutoPhotoOpen := false,
      pendingResumes := [], firedEvents := [] } 5000 0 rfl rfl

/-- C6: for every track with at least two points, the percent→index mapping
sends 0 to 0 and 100 to the last index, stays within `[0, N−1]` for every
percent in `[0, 100]`, and on that range the specification's clamped mapping
agrees with the code's unclamped one. -/
theorem percentToIndex_endpoints_and_bounds :
    ∀ (n : ℕ), 2 ≤ n →
      percentToIndex 0 n = 0
      ∧ percentToIndex 100 n = (n : ℤ) - 1
      ∧ ∀ p : ℚ, 0 ≤ p → p ≤ 100 →
          0 ≤ percentToIndex p n ∧ percentToIndex p n ≤ (n : ℤ) - 1
          ∧ percentToIndexClamped p n = percentToIndex p n := by
  intro n hn
  have hn1 : (1 : ℚ) ≤ (n : ℚ) - 1 := by
    have h2 : (2 : ℚ) ≤ (n : ℚ) := by exact_mod_cast hn
    linarith
  have hcast : ((n : ℚ) - 1) = (((n : ℤ) - 1 : ℤ) : ℚ) := by push_cast; ring
  refine ⟨?_, ?_, ?_⟩
  · simp [percentToIndex]
  · have h100 : (100 : ℚ) / 100 * ((n : ℚ) - 1) = (((n : ℤ) - 1 : ℤ) : ℚ) := by
      push_cast; ring
    rw [percentToIndex, h100, Int.floor_intCast]
  · intro p hp0 hp100
    have hfl0 : 0 ≤ percentToIndex p n := by
      rw [percentToIndex]
      refine Int.floor_nonneg.mpr (mul_nonneg (div_nonneg hp0 (by norm_num)) ?_)
      linarith
    have hfl1 : percentToIndex p n ≤ (n : ℤ) - 1 := by
      rw [percentToIndex]
      have h1 : p / 100 ≤ 1 := (div_le_one (by norm_num)).mpr hp100
      have h2 : p / 100 * ((n : ℚ) - 1) ≤ (n : ℚ) - 1 := by nlinarith
      calc ⌊p / 100 * ((n : ℚ) - 1)⌋ ≤ ⌊(n : ℚ) - 1⌋ := Int.floor_le_floor h2
        _ = (n : ℤ) - 1 := by rw [hcast, Int.floor_intCast]
    exact ⟨hfl0, hfl1, by
      rw [percentToIndexClamped, min_eq_left hfl1, max_eq_right hfl0]⟩

/-- Witness for C6 at `N = 3`, `percent = 50`. -/
theorem percentToIndex_endpoints_and_bounds_witness :
    percentToIndex 0 3 = 0 ∧ percentToIndex 100 3 = (3 : ℤ) - 1
    ∧ (0 ≤ percentToIndex 50 3 ∧ percentToIndex 50 3 ≤ (3 : ℤ) - 1
        ∧ percentToIndexClamped 50 3 = percentToIndex 50 3) := by
  obtain ⟨h1, h2, h3⟩ := percentToIndex_endpoints_and_bounds 3 (by norm_num)
  exact ⟨h1, h2, h3 50 (by norm_num) (by norm_num)⟩

/-- C10: for every non-empty point list and percent in `[0, 100]`, the
marker index is within bounds — nonnegative, strictly below the length (so
array indexing is safe) — and in the single-point case it is 0 for every
percent. -/
theorem marker_index_in_bounds :
    ∀ (pts : List GPXPoint), pts ≠ [] → ∀ p : ℚ, 0 ≤ p → p ≤ 100 →
      0 ≤ percentToIndex p pts.length
      ∧ percentToIndex p pts.length < (pts.length : ℤ)
      ∧ (percentToIndex p pts.length).toNat < pts.length
      ∧ (pts.length = 1 → percentToIndex p pts.length = 0) := by
  intro pts hne p hp0 hp100
  have hlen : 1 ≤ pts.length := List.length_pos.mpr hne
  have hn0 : (0 : ℚ) ≤ (pts.length : ℚ) - 1 := by
    have h1 : (1 : ℚ) ≤ (pts.length : ℚ) := by exact_mod_cast hlen
    linarith
  have h0 : 0 ≤ percentToIndex p pts.length :=
    Int.floor_nonneg.mpr (mul_nonneg (div_nonneg hp0 (by norm_num)) hn0)
  have hlt : percentToIndex p pts.length < (pts.length : ℤ) := by
    rw [percentToIndex]
    have h1 : p / 100 ≤ 1 := (div_le_one (by norm_num)).mpr hp100
    have h2 : p / 100 * ((pts.length : ℚ) - 1) ≤ (pts.length : ℚ) - 1 := by
      nlinarith
    have h3 : ⌊p / 100 * ((pts.length : ℚ) - 1)⌋ ≤ ⌊(pts.length : ℚ) - 1⌋ :=
      Int.floor_le_floor h2
    have h4 : ⌊(pts.length : ℚ) - 1⌋ = (pts.length : ℤ) - 1 := by
      rw [show ((pts.length : ℚ) - 1) = (((pts.length : ℤ) - 1 : ℤ) : ℚ) by
        push_cast; ring, Int.floor_intCast]
    omega
  refine ⟨h0, hlt, by omega, ?_⟩
  · intro h1
    rw [percentToIndex, h1]
    norm_num

/-- Witness for C10 on a two-point list at `percent = 99`. -/
theorem marker_index_in_bounds_witness :
    0 ≤ percentToIndex 99 ([{ lat := 0, lon := 0, ele := none, time := none },
        { lat := 1, lon := 1, ele := none, time := none }] : List GPXPoint).length
    ∧ percentToIndex 99 ([{ lat := 0, lon := 0, ele := none, time := none },
        { lat := 1, lon := 1, ele := none, time := none }] : List GPXPoint).length
        < (([{ lat := 0, lon := 0, ele := none, time := none },
            { lat := 1, lon := 1, ele := none, time := none }] : List GPXPoint).length : ℤ)
    ∧ (percentToIndex 99 ([{ lat := 0, lon := 0, ele := none, time := none },
        { lat := 1, lon := 1, ele := none, time := none }] : List GPXPoint).length).toNat
        < ([{ lat := 0, lon := 0, ele := none, time := none },
            { lat := 1, lon := 1, ele := none, time := none }] : List GPXPoint).length
    ∧ (([{ lat := 0, lon := 0, ele := none, time := none },
        { lat := 1, lon := 1, ele := none, time := none }] : List GPXPoint).length = 1 →
        percentToIndex 99 ([{ lat := 0, lon := 0, ele := none, time := none },
          { lat := 1, lon := 1, ele := none, time := none }] : List GPXPoint).length = 0) :=
  marker_index_in_bounds
    [{ lat := 0, lon := 0, ele := none, time := none },
     { lat := 1, lon := 1, ele := none, time := none }]
    (by simp) 99 (by norm_num) (by norm_num)

/-- C1: over any reset-free sequence of stimuli (seeks backward and forward,
play/pause, animation frames, resume timers) from a state whose segment log
is empty — which is what any state reached by a Reset provides for the
stretch until the next Reset — each photo id appears in the fired-events log
at most once; and once an id is in `shownPhotosInSession`, no reset-free
stretch ever fires it again. -/
theorem photo_trigger_at_most_once :
    (∀ (positions : List PhotoPosition) (st : IndexState) (evs : List IndexEv),
        st.firedEvents = [] → (∀ e ∈ evs, e ≠ IndexEv.reset) →
        ∀ id, (runIndex positions st evs).firedEvents.count id ≤ 1)
    ∧ (∀ (positions : List PhotoPosition) (st : IndexState)
        (evs : List IndexEv) (id : String),
        (∀ e ∈ evs, e ≠ IndexEv.reset) → id ∈ st.shownPhotosInSession →
        (runIndex positions st evs).firedEvents.count id
          = st.firedEvents.count id) := by
  constructor
  · intro positions st evs hfe hnr id
    refine runIndex_count_le_one evs positions st id hnr ?_ ?_
    · rw [hfe]
      simp
    · intro j hj
      rw [hfe] at hj
      cases hj
  · intro positions st evs id hnr hmem
    exact (runIndex_never_refire evs positions st id hnr hmem).1

/-- A single photo anchor projected to 50 % of the track. -/
def demoPositions : List PhotoPosition := [{ id := "summit", position := 50 }]

/-- The component state right after a track load. -/
def demoInit : IndexState :=
  { isPlaying := false, currentPosition := 0, startTime := none,
    shownPhotosInSession := [], isAutoPhotoOpen := false,
    pendingResumes := [], firedEvents := [] }

/-- Press play at 0 ms, reach 50 % at the 5000 ms frame (which fires the
photo and pauses), let the 3000 ms timer resume at 8000 ms, and sweep to the
end at 20000 ms. -/
def demoEvs : List IndexEv :=
  [IndexEv.playPause 0, IndexEv.tick 5000, IndexEv.timerFire 8000,
   IndexEv.tick 20000]

/-- A state in which the photo `"summit"` has already been shown this
session. -/
def demoShownInit : IndexState :=
  { isPlaying := true, currentPosition := 0, startTime := some 0,
    shownPhotosInSession := ["summit"], isAutoPhotoOpen := false,
    pendingResumes := [], firedEvents := [] }

/-- Witness for C1: on the demo run the anchor fires at most once, and from
a state that already shows it the demo run fires it zero further times. -/
theorem photo_trigger_at_most_once_witness :
    (runIndex demoPositions demoInit demoEvs).firedEvents.count "summit" ≤ 1
    ∧ (runIndex demoPositions demoShownInit demoEvs).firedEvents.count "summit"
      = demoShownInit.firedEvents.count "summit" :=
  ⟨photo_trigger_at_most_once.1 demoPositions demoInit demoEvs rfl
      (by decide) "summit",
    photo_trigger_at_most_once.2 demoPositions demoShownInit demoEvs "summit"
      (by decide) (by decide)⟩

/-- C7 (the claim's required guard is absent from the code): the component
never cancels the 3000 ms auto-resume timeout, so a Reset issued inside the
delay window is later overridden — the stale timer sets `isPlaying` back to
true and restores a `startTime` computed from the position its closure
captured.  Concretely: play from 0, trigger the photo at the 5000 ms frame
(progress 50 %), press Reset, and let the pending timer fire at 20000 ms:
after the Reset the driver is stopped, but after the stale timer it is
playing again with `startTime = some 15000`. -/
theorem stale_resume_survives_reset :
    (runIndex demoPositions demoInit
        [IndexEv.playPause 0, IndexEv.tick 5000]).isPlaying = false
    ∧ (runIndex demoPositions demoInit
        [IndexEv.playPause 0, IndexEv.tick 5000]).pendingResumes = [50]
    ∧ (runIndex demoPositions demoInit
        [IndexEv.playPause 0, IndexEv.tick 5000, IndexEv.reset]).isPlaying
      = false
    ∧ (runIndex demoPositions demoInit
        [IndexEv.playPause 0, IndexEv.tick 5000, IndexEv.reset]).startTime
      = none
    ∧ (runIndex demoPositions demoInit
        [IndexEv.playPause 0, IndexEv.tick 5000, IndexEv.reset]).pendingResumes
      = [50]
    ∧ (runIndex demoPositions demoInit
        [IndexEv.playPause 0, IndexEv.tick 5000, IndexEv.reset,
         IndexEv.timerFire 20000]).isPlaying = true
    ∧ (runIndex demoPositions demoInit
        [IndexEv.playPause 0, IndexEv.tick 5000, IndexEv.reset,
         IndexEv.timerFire 20000]).startTime = some 15000 := by
  norm_num [runIndex, indexStep, handlePlayPause, handlePositionChange,
    handleReset, timeoutResume, animationFrameTick, photoTriggerCheck,
    demoPositions, demoInit, animationDuration, List.find?]

/-- C8: the haversine distance of the code is zero on identical coordinates
and symmetric in its two arguments. -/
theorem calculateDistance_zero_and_symm :
    (∀ p : GPXPoint, calculateDistance p p = 0)
    ∧ (∀ p q : GPXPoint, calculateDistance p q = calculateDistance q p) := by
  constructor
  · intro p
    unfold calculateDistance
    norm_num [toRadians, atan2, Real.arctan_zero]
  · intro p q
    have hsin : ∀ u v : ℝ,
        Real.sin (toRadians (u - v) / 2) * Real.sin (toRadians (u - v) / 2)
          = Real.sin (toRadians (v - u) / 2)
              * Real.sin (toRadians (v - u) / 2) := by
      intro u v
      have h : toRadians (u - v) / 2 = -(toRadians (v - u) / 2) := by
        unfold toRadians
        ring
      rw [h, Real.sin_neg]
      ring
    unfold calculateDistance
    dsimp only
    have hsl := hsin ((q.lat : ℝ)) ((p.lat : ℝ))
    have hll := hsin ((q.lon : ℝ)) ((p.lon : ℝ))
    have key : ∀ x y : ℝ, x = y →
        6371000 * (2 * atan2 (Real.sqrt x) (Real.sqrt (1 - x)))
          = 6371000 * (2 * atan2 (Real.sqrt y) (Real.sqrt (1 - y))) := by
      intro x y hx
      rw [hx]
    apply key
    linear_combination hsl +
      Real.cos (toRadians (p.lat : ℝ)) * Real.cos (toRadians (q.lat : ℝ)) * hll

end GpxTrailFlyer
